import Mathlib

/-
Shallow embedding of src/tensorflow_transform/schema_inference.py.

Modelling conventions:
- A TensorFlow static shape is `Option (List (Option Nat))`: `none` means the
  rank itself is unknown (`ndims is None`); a list entry `none` means that
  dimension has unknown size.
- Python dicts built by `dict(zip(...))` with possibly duplicate keys are
  modelled as association lists read with a later-binding-wins lookup
  (`dictLookup`), matching dict-comprehension overwrite semantics.
- The `collections.defaultdict(list)` used for per-tensor annotations is
  modelled as an association list with unique keys in first-touch order
  (`multidictAppend`), read with a first-match lookup (`mdictLookup`); for
  unique keys the two lookup directions agree with Python dict lookup.
- `tf.Session` is the external execution collaborator: it is modelled as a
  pair of evaluation maps, one producing an integer per tensor (for min/max
  override tensors) and one producing bytes per tensor (for deferred
  serialized-proto payloads).
- Raising `ValueError`, `TypeError` or a failed `assert` is modelled with
  `Except TftError`; each distinct raise site in the source has its own
  error constructor.
- The external schema-construction collaborator
  `schema_utils.schema_from_feature_spec` is opaque; its input tuple
  (feature spec, domains, per-feature annotations, global annotations) is the
  `SchemaInputs` structure, which is what `infer_feature_schema` returns here.
-/

set_option autoImplicit false

namespace SchemaInference

/-- Element dtypes. The source only treats `tf.string`, `tf.int64` and
`tf.float32` as supported; the remaining constructors stand for the other
TensorFlow dtypes a caller could pass. -/
inductive DType
  | string
  | int64
  | float32
  | int32
  | float64
  | bool
  deriving DecidableEq, Repr

/-- A dense `tf.Tensor`: a graph-unique name, a dtype and a static shape. -/
structure Tensor where
  name : String
  dtype : DType
  shape : Option (List (Option Nat))
  deriving DecidableEq, Repr

/-- A `tf.SparseTensor`, carrying its values tensor and its own static shape.
Its dtype is the dtype of its values tensor. -/
structure SparseTensor where
  values : Tensor
  shape : Option (List (Option Nat))
  deriving DecidableEq, Repr

/-- A value that is either a dense `Tensor` or a `SparseTensor`, the two
recognized inputs of feature-spec inference. -/
inductive TensorLike
  | dense (t : Tensor)
  | sparse (st : SparseTensor)
  deriving DecidableEq, Repr

/-- Dtype of a tensor-like value (`tensor.dtype` in the source). -/
def TensorLike.dtype : TensorLike → DType
  | .dense t => t.dtype
  | .sparse st => st.values.dtype

/-- Static shape of a tensor-like value (`tensor.get_shape()` in the source). -/
def TensorLike.getShape : TensorLike → Option (List (Option Nat))
  | .dense t => t.shape
  | .sparse st => st.shape

/-- The underlying value tensor: `tensor.values` for a sparse tensor, the
tensor itself for a dense one (line 128 of the source). -/
def TensorLike.valuesTensor : TensorLike → Tensor
  | .dense t => t
  | .sparse st => st.values

/-- Number of dimensions of a static shape (`shape.ndims`): `none` when the
rank is unknown. -/
def ndims (shape : Option (List (Option Nat))) : Option Nat :=
  shape.map List.length

/-- Feature-spec descriptors: `tf.io.FixedLenFeature(shape, dtype)` (the shape
stored is `shape.as_list()[1:]` verbatim) and `tf.io.VarLenFeature(dtype)`. -/
inductive FeatureSpecEntry
  | fixedLen (shape : List (Option Nat)) (dtype : DType)
  | varLen (dtype : DType)
  deriving DecidableEq, Repr

/-- One constructor per distinct raise site of the source module. -/
inductive TftError
  | invalidDtypeForFeatureSpec
  | invalidShapeForVarLenFeature
  | invalidShapeForFixedLenFeatureRank
  | invalidShapeForFixedLenFeatureUnknownDim
  | tensorWasNotATensor
  | rangeDtypeNotInt64
  | minValueWasNotATensor
  | maxValueWasNotATensor
  | assertionError
  deriving DecidableEq, Repr

/-- Loop body of `_feature_spec_from_batched_tensors` (lines 58 to 84): the
feature-spec entry of one tensor, or the error raised for it. -/
def featureSpecEntryOf (tensor : TensorLike) : Except TftError FeatureSpecEntry :=
  let shape := tensor.getShape
  if ¬ (tensor.dtype = DType.string ∨ tensor.dtype = DType.int64 ∨
        tensor.dtype = DType.float32) then
    Except.error TftError.invalidDtypeForFeatureSpec
  else
    match tensor with
    | .sparse _ =>
        if ndims shape ≠ some 2 then
          Except.error TftError.invalidShapeForVarLenFeature
        else
          Except.ok (FeatureSpecEntry.varLen tensor.dtype)
    | .dense _ =>
        match shape with
        | none => Except.error TftError.invalidShapeForFixedLenFeatureRank
        | some dims =>
            if dims.length = 0 then
              Except.error TftError.invalidShapeForFixedLenFeatureRank
            else if (dims.drop 1).any (fun d => d.isNone) then
              Except.error TftError.invalidShapeForFixedLenFeatureUnknownDim
            else
              Except.ok (FeatureSpecEntry.fixedLen (dims.drop 1) tensor.dtype)

/-- `_feature_spec_from_batched_tensors` (lines 42 to 86): infer a feature
spec for each named tensor in iteration order, aborting the whole batch at
the first failing tensor. -/
def _feature_spec_from_batched_tensors :
    List (String × TensorLike) → Except TftError (List (String × FeatureSpecEntry))
  | [] => Except.ok []
  | (name, tensor) :: rest =>
      match featureSpecEntryOf tensor with
      | Except.error e => Except.error e
      | Except.ok entry =>
          match _feature_spec_from_batched_tensors rest with
          | Except.error e => Except.error e
          | Except.ok restResult => Except.ok ((name, entry) :: restResult)

/-- A serialized-proto payload argument: either a literal byte string or a
deferred `tf.Tensor` that will yield the bytes when evaluated. -/
inductive ProtoValue
  | literal (bytes : List Nat)
  | deferred (t : Tensor)
  deriving DecidableEq, Repr

/-- A `tf.Graph` restricted to the six named collections this module uses:
the three parallel override registries (lines 148 to 150) and the three
parallel annotation registries (lines 154 to 156). `add_to_collection`
appends; `get_collection` reads the whole ordered list. -/
structure Graph where
  overrideTensors : List Tensor
  overrideMins : List Tensor
  overrideMaxs : List Tensor
  annotationAnchors : List Tensor
  annotationTypeUrls : List String
  annotationProtos : List ProtoValue
  deriving Repr

/-- An arbitrary Python value passed as an argument where the source checks
`isinstance(x, tf.Tensor)`: a dense tensor, a sparse tensor, or a plain
(non-tensor) literal. -/
inductive PyValue
  | tensor (t : Tensor)
  | sparseTensor (st : SparseTensor)
  | literalInt (n : Int)
  deriving DecidableEq, Repr

/-- `set_tensor_schema_override` (lines 161 to 184): validate the arguments
then append one entry to each of the three override registries. Each raise
happens before any append, so on error the graph is unchanged (no graph is
returned). -/
def set_tensor_schema_override (g : Graph) (tensor min_value max_value : PyValue) :
    Except TftError Graph :=
  match tensor with
  | PyValue.tensor t =>
      if t.dtype ≠ DType.int64 then
        Except.error TftError.rangeDtypeNotInt64
      else
        match min_value with
        | PyValue.tensor mn =>
            match max_value with
            | PyValue.tensor mx =>
                Except.ok { g with
                  overrideTensors := g.overrideTensors ++ [t]
                  overrideMins := g.overrideMins ++ [mn]
                  overrideMaxs := g.overrideMaxs ++ [mx] }
            | _ => Except.error TftError.maxValueWasNotATensor
        | _ => Except.error TftError.minValueWasNotATensor
  | _ => Except.error TftError.tensorWasNotATensor

/-- `_get_tensor_schema_overrides` (lines 187 to 194): read the three
override registries, assert equal lengths, and build
`dict(zip(tensors, zip(min_values, max_values)))`, kept here as the ordered
association list that the dict is built from. -/
def _get_tensor_schema_overrides (g : Graph) :
    Except TftError (List (Tensor × Tensor × Tensor)) :=
  if g.overrideTensors.length ≠ g.overrideMins.length then
    Except.error TftError.assertionError
  else if g.overrideTensors.length ≠ g.overrideMaxs.length then
    Except.error TftError.assertionError
  else
    Except.ok (g.overrideTensors.zip (g.overrideMins.zip g.overrideMaxs))

/-- Python dict lookup for a dict built from an association list with
possibly duplicate keys: the later binding wins. -/
def dictLookup {α : Type} : List (Tensor × α) → Tensor → Option α
  | [], _ => none
  | (k, v) :: rest, key =>
      match dictLookup rest key with
      | some w => some w
      | none => if k = key then some v else none

/-- First-match association-list lookup, used for maps whose keys are
unique (the defaultdict of per-tensor annotations). -/
def mdictLookup {α : Type} : List (Tensor × α) → Tensor → Option α
  | [], _ => none
  | (k, v) :: rest, key => if k = key then some v else mdictLookup rest key

/-- The execution collaborator (`tf.Session`): evaluates a deferred tensor to
an integer (min/max override tensors) or to bytes (serialized protos). -/
structure Session where
  evalInt : Tensor → Int
  evalBytes : Tensor → List Nat

/-- An `any_pb2.Any` message: a type url together with serialized bytes. -/
structure AnyProto where
  type_url : String
  value : List Nat
  deriving DecidableEq, Repr

/-- Reserved op name marking an annotation anchor as schema-global
(line 158 of the source). -/
def _TF_METADATA_EXTRA_ANNOTATION_GLOBAL : String :=
  "tft_schema_override_global_sentinel"

/-- Characters of the text after the last slash of the input (the running
accumulator holds the text after the most recent slash). -/
def lastComponentAux : List Char → List Char → List Char
  | [], acc => acc
  | c :: cs, acc =>
      if c = '/' then lastComponentAux cs []
      else lastComponentAux cs (acc ++ [c])

/-- Embedding of the Python expression `s.split('/')[-1]`: the text after
the last slash, the whole string when it has no slash. -/
def lastPathComponent (s : String) : String :=
  String.mk (lastComponentAux s.data [])

/-- Embedding of Python `s.startswith(pre)`. -/
def strStartsWith (s pre : String) : Bool :=
  List.isPrefixOf pre.data s.data

/-- Resolve a payload to bytes (lines 253 to 254): a deferred tensor is
evaluated by the session, a literal is returned as-is. -/
def resolveProtoValue (session : Session) : ProtoValue → List Nat
  | ProtoValue.literal bs => bs
  | ProtoValue.deferred t => session.evalBytes t

/-- Append one annotation for `key` in a defaultdict-of-lists modelled as an
association list: extend the list at the first entry for `key`, or add a new
entry at the end (first-touch key order, insertion order within a key). -/
def multidictAppend (m : List (Tensor × List AnyProto)) (key : Tensor) (a : AnyProto) :
    List (Tensor × List AnyProto) :=
  match m with
  | [] => [(key, [a])]
  | (k, vs) :: rest =>
      if k = key then (k, vs ++ [a]) :: rest
      else (k, vs) :: multidictAppend rest key a

/-- Python `zip` over three lists: truncates to the shortest. -/
def zip3 {α β γ : Type} : List α → List β → List γ → List (α × β × γ)
  | x :: xs, y :: ys, z :: zs => (x, y, z) :: zip3 xs ys zs
  | _, _, _ => []

/-- Body of the loop of `_get_schema_annotations` (lines 249 to 265) for one
registered triple: resolve the payload, drop it if empty, otherwise wrap it
into an `Any` and classify it as global or per-tensor by the final path
component of the anchor name. -/
def annotationStep (session : Session)
    (acc : List (Tensor × List AnyProto) × List AnyProto)
    (entry : Tensor × String × ProtoValue) :
    List (Tensor × List AnyProto) × List AnyProto :=
  let bytes := resolveProtoValue session entry.2.2
  if bytes.isEmpty then acc
  else
    let a : AnyProto := { type_url := entry.2.1, value := bytes }
    if strStartsWith (lastPathComponent entry.1.name)
        _TF_METADATA_EXTRA_ANNOTATION_GLOBAL then
      (acc.1, acc.2 ++ [a])
    else
      (multidictAppend acc.1 entry.1 a, acc.2)

/-- `_get_schema_annotations` (lines 229 to 266): zip the three annotation
registries (plain `zip`, truncating to the shortest) and fold the loop body
over the triples, producing the per-tensor annotation map and the global
annotation list. -/
def _get_schema_annotations (g : Graph) (session : Session) :
    List (Tensor × List AnyProto) × List AnyProto :=
  (zip3 g.annotationAnchors g.annotationTypeUrls g.annotationProtos).foldl
    (annotationStep session) ([], [])

/-- `annotate` (lines 197 to 226): append one triple to the three annotation
registries. When no anchor tensor is given, a fresh constant named with the
reserved global sentinel is created; TensorFlow prepends the active name
scope (`scopePath`, empty or ending in a slash) and appends a uniquifying
suffix plus the output index (`nameSuffix`, containing no slash), which the
two extra parameters model. -/
def annotate (g : Graph) (type_url : String) (proto_message : ProtoValue)
    (tensor : Option Tensor) (scopePath nameSuffix : String) : Graph :=
  let anchor : Tensor :=
    match tensor with
    | some t => t
    | none =>
        { name := scopePath ++ _TF_METADATA_EXTRA_ANNOTATION_GLOBAL ++ nameSuffix
          dtype := DType.string
          shape := some [] }
  { g with
    annotationAnchors := g.annotationAnchors ++ [anchor]
    annotationTypeUrls := g.annotationTypeUrls ++ [type_url]
    annotationProtos := g.annotationProtos ++ [proto_message] }

/-- `schema_pb2.IntDomain`: optional min and max plus the categorical flag.
A `none` field models a proto field left unset (Python `None` argument). -/
structure IntDomain where
  min : Option Int
  max : Option Int
  is_categorical : Bool
  deriving DecidableEq, Repr

/-- The argument tuple handed to the external schema-construction
collaborator `schema_utils.schema_from_feature_spec` (lines 139 to 141):
feature spec, per-feature integer domains, per-feature annotation lists and
global annotations, each keyed in feature iteration order. -/
structure SchemaInputs where
  featureSpec : List (String × FeatureSpecEntry)
  domains : List (String × IntDomain)
  featureAnns : List (String × List AnyProto)
  globalAnns : List AnyProto
  deriving DecidableEq, Repr

/-- Lines 115 to 121 of `infer_feature_schema`: read the override registries
and either map every registered tensor to `(None, None)` (no session) or
evaluate all min/max tensors in one `session.run` call. -/
def resolveTensorRanges (g : Graph) (session : Option Session) :
    Except TftError (List (Tensor × Option Int × Option Int)) :=
  match _get_tensor_schema_overrides g with
  | Except.error e => Except.error e
  | Except.ok overrides =>
      match session with
      | none =>
          Except.ok (overrides.map (fun p => (p.1, (none, none))))
      | some s =>
          Except.ok (overrides.map
            (fun p => (p.1, (some (s.evalInt p.2.1), some (s.evalInt p.2.2)))))

/-- The per-feature loop of `infer_feature_schema` (lines 125 to 136): for
each named feature take its value tensor; if it has a resolved range, assert
the value tensor has int64 dtype and record an `IntDomain` marked
categorical; if it has annotations, record them under the feature name. -/
def buildDomainsAndAnns
    (tensor_ranges : List (Tensor × Option Int × Option Int))
    (tensorAnns : List (Tensor × List AnyProto)) :
    List (String × TensorLike) →
      Except TftError (List (String × IntDomain) × List (String × List AnyProto))
  | [] => Except.ok ([], [])
  | (name, tensor) :: rest =>
      let values := tensor.valuesTensor
      let headDomains : Except TftError (List (String × IntDomain)) :=
        match dictLookup tensor_ranges values with
        | some (min_value, max_value) =>
            if values.dtype = DType.int64 then
              Except.ok [(name, { min := min_value, max := max_value,
                                  is_categorical := true })]
            else
              Except.error TftError.assertionError
        | none => Except.ok []
      match headDomains with
      | Except.error e => Except.error e
      | Except.ok hd =>
          let headAnns : List (String × List AnyProto) :=
            match mdictLookup tensorAnns values with
            | some anns => [(name, anns)]
            | none => []
          match buildDomainsAndAnns tensor_ranges tensorAnns rest with
          | Except.error e => Except.error e
          | Except.ok (restDomains, restAnns) =>
              Except.ok (hd ++ restDomains, headAnns ++ restAnns)

/-- `infer_feature_schema` (lines 89 to 142): resolve overrides, resolve
annotations when a session is given (both annotation sets are empty when it
is not), build per-feature domains and annotation lists, infer the feature
spec, and hand the four pieces to the schema-construction collaborator. -/
def infer_feature_schema (features : List (String × TensorLike)) (g : Graph)
    (session : Option Session) : Except TftError SchemaInputs :=
  match resolveTensorRanges g session with
  | Except.error e => Except.error e
  | Except.ok tensor_ranges =>
      let resolvedAnns : List (Tensor × List AnyProto) × List AnyProto :=
        match session with
        | none => ([], [])
        | some s => _get_schema_annotations g s
      match buildDomainsAndAnns tensor_ranges resolvedAnns.1 features with
      | Except.error e => Except.error e
      | Except.ok (domains, featureAnns) =>
          match _feature_spec_from_batched_tensors features with
          | Except.error e => Except.error e
          | Except.ok feature_spec =>
              Except.ok { featureSpec := feature_spec
                          domains := domains
                          featureAnns := featureAnns
                          globalAnns := resolvedAnns.2 }

/-- Well-formedness that the registration path (`set_tensor_schema_override`)
guarantees for the override registries: equal lengths and int64 dtype for
every registered value tensor. -/
def Graph.overridesWF (g : Graph) : Prop :=
  g.overrideTensors.length = g.overrideMins.length ∧
  g.overrideTensors.length = g.overrideMaxs.length ∧
  ∀ t ∈ g.overrideTensors, t.dtype = DType.int64

section FeatureSpecTheorems

/-- Feature-spec inference on a one-feature batch is the per-tensor
inference wrapped under the feature name. -/
theorem featureSpec_singleton (name : String) (tensor : TensorLike) :
    _feature_spec_from_batched_tensors [(name, tensor)] =
      (featureSpecEntryOf tensor).map (fun e => [(name, e)]) := by
  cases h : featureSpecEntryOf tensor <;>
    simp [_feature_spec_from_batched_tensors, h, Except.map]

/-- C2 counterexample: a rank-1 dense int64 tensor is accepted by
feature-spec inference (it yields a scalar fixed-shape descriptor), whereas
the claim states that rank 1 fails with an invalid-shape error. -/
theorem rank_one_dense_accepted :
    _feature_spec_from_batched_tensors
      [("f", TensorLike.dense
        { name := "r1:0", dtype := DType.int64, shape := some [none] })] =
      Except.ok [("f", FeatureSpecEntry.fixedLen [] DType.int64)] := rfl

/-- C2 amended: for a dense tensor of supported dtype, inference fails with
the invalid-shape rank error exactly when the rank is unknown or 0; a rank-1
tensor is accepted and yields a fixed-shape descriptor with empty shape. -/
theorem dense_rank_requirement (name : String) (t : Tensor)
    (hdt : t.dtype = DType.string ∨ t.dtype = DType.int64 ∨
           t.dtype = DType.float32) :
    ((t.shape = none ∨ t.shape = some []) →
       _feature_spec_from_batched_tensors [(name, TensorLike.dense t)] =
         Except.error TftError.invalidShapeForFixedLenFeatureRank) ∧
    (∀ d : Option Nat, t.shape = some [d] →
       _feature_spec_from_batched_tensors [(name, TensorLike.dense t)] =
         Except.ok [(name, FeatureSpecEntry.fixedLen [] t.dtype)]) := by
  constructor
  · intro hsh
    rw [featureSpec_singleton]
    rcases hdt with h | h | h <;> rcases hsh with h2 | h2 <;>
      simp [featureSpecEntryOf, TensorLike.dtype, TensorLike.getShape, h, h2,
        Except.map]
  · intro d hsh
    rw [featureSpec_singleton]
    rcases hdt with h | h | h <;>
      simp [featureSpecEntryOf, TensorLike.dtype, TensorLike.getShape, h, hsh,
        Except.map]

/-- C2 witness: a dense float32 tensor of unknown rank is rejected with the
invalid-shape rank error, and a rank-1 dense float32 tensor is accepted. -/
theorem dense_rank_requirement_witness :
    _feature_spec_from_batched_tensors
      [("w", TensorLike.dense
        { name := "u:0", dtype := DType.float32, shape := none })] =
      Except.error TftError.invalidShapeForFixedLenFeatureRank ∧
    _feature_spec_from_batched_tensors
      [("w", TensorLike.dense
        { name := "s:0", dtype := DType.float32, shape := some [some 8] })] =
      Except.ok [("w", FeatureSpecEntry.fixedLen [] DType.float32)] :=
  ⟨(dense_rank_requirement "w"
      { name := "u:0", dtype := DType.float32, shape := none }
      (Or.inr (Or.inr rfl))).1 (Or.inl rfl),
   (dense_rank_requirement "w"
      { name := "s:0", dtype := DType.float32, shape := some [some 8] }
      (Or.inr (Or.inr rfl))).2 (some 8) rfl⟩

/-- C3: for a dense tensor of supported dtype with a batch dimension, if
every non-batch dimension is statically known the result is a fixed-shape
descriptor with exactly the non-batch shape and the dtype, and the result
does not depend on the batch dimension; if some non-batch dimension is
unknown, inference fails with the invalid-shape unknown-dimension error. -/
theorem dense_static_shape (name : String) (t : Tensor) (d : Option Nat)
    (dims : List (Option Nat))
    (hdt : t.dtype = DType.string ∨ t.dtype = DType.int64 ∨
           t.dtype = DType.float32)
    (hsh : t.shape = some (d :: dims)) :
    (dims.all (fun x => x.isSome) = true →
       _feature_spec_from_batched_tensors [(name, TensorLike.dense t)] =
         Except.ok [(name, FeatureSpecEntry.fixedLen dims t.dtype)] ∧
       ∀ d2 : Option Nat,
         featureSpecEntryOf
             (TensorLike.dense { t with shape := some (d2 :: dims) }) =
           featureSpecEntryOf (TensorLike.dense t)) ∧
    ((∃ x ∈ dims, x = none) →
       _feature_spec_from_batched_tensors [(name, TensorLike.dense t)] =
         Except.error TftError.invalidShapeForFixedLenFeatureUnknownDim) := by
  constructor
  · intro hall
    have hnone : (dims.any fun d => d.isNone) = false := by
      rw [List.any_eq_false]
      intro x hx
      have := List.all_eq_true.mp hall x hx
      simp [Option.isNone, Option.isSome] at *
      cases x <;> simp_all
    constructor
    · rw [featureSpec_singleton]
      rcases hdt with h | h | h <;>
        simp [featureSpecEntryOf, TensorLike.dtype, TensorLike.getShape, h,
          hsh, hnone, Except.map]
    · intro d2
      rcases hdt with h | h | h <;>
        simp [featureSpecEntryOf, TensorLike.dtype, TensorLike.getShape, h,
          hsh, hnone]
  · intro hex
    have hany : (dims.any fun d => d.isNone) = true := by
      rw [List.any_eq_true]
      rcases hex with ⟨x, hx, hxn⟩
      exact ⟨x, hx, by simp [hxn]⟩
    rw [featureSpec_singleton]
    rcases hdt with h | h | h <;>
      simp [featureSpecEntryOf, TensorLike.dtype, TensorLike.getShape, h, hsh,
        hany, Except.map]

/-- C3 witness: a dense string tensor of shape (None, 2, 3) yields a
fixed-shape descriptor of shape (2, 3); changing the batch dimension to 7
gives the same descriptor; a dense string tensor of shape (None, None) is
rejected with the unknown-dimension error. -/
theorem dense_static_shape_witness :
    _feature_spec_from_batched_tensors
      [("x", TensorLike.dense { name := "a:0", dtype := DType.string,
                                shape := some [none, some 2, some 3] })] =
      Except.ok [("x", FeatureSpecEntry.fixedLen [some 2, some 3]
                    DType.string)] ∧
    featureSpecEntryOf
        (TensorLike.dense { name := "a:0", dtype := DType.string,
                            shape := some [some 7, some 2, some 3] }) =
      featureSpecEntryOf
        (TensorLike.dense { name := "a:0", dtype := DType.string,
                            shape := some [none, some 2, some 3] }) ∧
    _feature_spec_from_batched_tensors
      [("x", TensorLike.dense { name := "b:0", dtype := DType.string,
                                shape := some [none, none] })] =
      Except.error TftError.invalidShapeForFixedLenFeatureUnknownDim :=
  ⟨((dense_static_shape "x"
      { name := "a:0", dtype := DType.string,
        shape := some [none, some 2, some 3] } none [some 2, some 3]
      (Or.inl rfl) rfl).1 (by decide)).1,
   ((dense_static_shape "x"
      { name := "a:0", dtype := DType.string,
        shape := some [none, some 2, some 3] } none [some 2, some 3]
      (Or.inl rfl) rfl).1 (by decide)).2 (some 7),
   (dense_static_shape "x"
      { name := "b:0", dtype := DType.string, shape := some [none, none] }
      none [none] (Or.inl rfl) rfl).2 ⟨none, by decide, rfl⟩⟩

/-- C4: for a sparse tensor of supported dtype, rank exactly 2 yields a
variable-length descriptor carrying only the dtype, and any other rank
(including unknown rank) fails with the invalid-shape error. -/
theorem sparse_rank_two (name : String) (st : SparseTensor)
    (hdt : st.values.dtype = DType.string ∨ st.values.dtype = DType.int64 ∨
           st.values.dtype = DType.float32) :
    (ndims st.shape = some 2 →
       _feature_spec_from_batched_tensors [(name, TensorLike.sparse st)] =
         Except.ok [(name, FeatureSpecEntry.varLen st.values.dtype)]) ∧
    (ndims st.shape ≠ some 2 →
       _feature_spec_from_batched_tensors [(name, TensorLike.sparse st)] =
         Except.error TftError.invalidShapeForVarLenFeature) := by
  constructor
  · intro hr
    rw [featureSpec_singleton]
    rcases hdt with h | h | h <;>
      simp [featureSpecEntryOf, TensorLike.dtype, TensorLike.getShape, h, hr,
        Except.map]
  · intro hr
    rw [featureSpec_singleton]
    rcases hdt with h | h | h <;>
      simp [featureSpecEntryOf, TensorLike.dtype, TensorLike.getShape, h, hr,
        Except.map]

/-- C4 witness: a rank-2 sparse string tensor yields a variable-length
string descriptor, while rank-3 and unknown-rank sparse tensors are rejected
with the invalid-shape error. -/
theorem sparse_rank_two_witness :
    _feature_spec_from_batched_tensors
      [("sp", TensorLike.sparse
        { values := { name := "v:0", dtype := DType.string, shape := some [none] },
          shape := some [none, none] })] =
      Except.ok [("sp", FeatureSpecEntry.varLen DType.string)] ∧
    _feature_spec_from_batched_tensors
      [("sp", TensorLike.sparse
        { values := { name := "v:0", dtype := DType.string, shape := some [none] },
          shape := some [none, none, none] })] =
      Except.error TftError.invalidShapeForVarLenFeature ∧
    _feature_spec_from_batched_tensors
      [("sp", TensorLike.sparse
        { values := { name := "v:0", dtype := DType.string, shape := some [none] },
          shape := none })] =
      Except.error TftError.invalidShapeForVarLenFeature :=
  ⟨(sparse_rank_two "sp"
      { values := { name := "v:0", dtype := DType.string, shape := some [none] },
        shape := some [none, none] } (Or.inl rfl)).1 rfl,
   (sparse_rank_two "sp"
      { values := { name := "v:0", dtype := DType.string, shape := some [none] },
        shape := some [none, none, none] } (Or.inl rfl)).2 (by decide),
   (sparse_rank_two "sp"
      { values := { name := "v:0", dtype := DType.string, shape := some [none] },
        shape := none } (Or.inl rfl)).2 (by decide)⟩

/-- C5: any tensor (dense or sparse, whatever its shape, including invalid
shapes) whose dtype is outside the supported set is rejected with the
invalid-dtype error, both per tensor and for the whole batch when it occurs;
since the conclusion holds for every shape, the dtype check precedes every
shape check. -/
theorem unsupported_dtype_rejected (tensor : TensorLike)
    (hdt : ¬ (tensor.dtype = DType.string ∨ tensor.dtype = DType.int64 ∨
              tensor.dtype = DType.float32)) :
    featureSpecEntryOf tensor = Except.error TftError.invalidDtypeForFeatureSpec ∧
    ∀ (name : String) (rest : List (String × TensorLike)),
      _feature_spec_from_batched_tensors ((name, tensor) :: rest) =
        Except.error TftError.invalidDtypeForFeatureSpec := by
  have h1 : featureSpecEntryOf tensor =
      Except.error TftError.invalidDtypeForFeatureSpec := by
    unfold featureSpecEntryOf
    rw [if_pos hdt]
  refine ⟨h1, fun name rest => ?_⟩
  simp [_feature_spec_from_batched_tensors, h1]

/-- C5 witness: a sparse int32 tensor whose rank is also invalid (rank 0) is
rejected with the invalid-dtype error, not the invalid-shape error, and so
is a whole batch starting with it. -/
theorem unsupported_dtype_rejected_witness :
    featureSpecEntryOf
        (TensorLike.sparse
          { values := { name := "v:0", dtype := DType.int32, shape := some [none] },
            shape := some [] }) =
      Except.error TftError.invalidDtypeForFeatureSpec ∧
    _feature_spec_from_batched_tensors
      [("bad", TensorLike.sparse
        { values := { name := "v:0", dtype := DType.int32, shape := some [none] },
          shape := some [] })] =
      Except.error TftError.invalidDtypeForFeatureSpec :=
  ⟨(unsupported_dtype_rejected
      (TensorLike.sparse
        { values := { name := "v:0", dtype := DType.int32, shape := some [none] },
          shape := some [] }) (by decide)).1,
   (unsupported_dtype_rejected
      (TensorLike.sparse
        { values := { name := "v:0", dtype := DType.int32, shape := some [none] },
          shape := some [] }) (by decide)).2 "bad" []⟩

end FeatureSpecTheorems

section Fixtures

/-- Concrete int64 feature tensor of shape (None, 1) used as a registered
override target in witnesses. -/
def ovTensor : Tensor :=
  { name := "x:0", dtype := DType.int64, shape := some [none, some 1] }

/-- Concrete deferred min tensor. -/
def minTensor : Tensor :=
  { name := "mn:0", dtype := DType.int64, shape := some [] }

/-- Concrete deferred max tensor. -/
def maxTensor : Tensor :=
  { name := "mx:0", dtype := DType.int64, shape := some [] }

/-- A graph with no registered overrides or annotations. -/
def emptyGraph : Graph := ⟨[], [], [], [], [], []⟩

/-- A graph with one registered override on `ovTensor`. -/
def overrideGraph : Graph := ⟨[ovTensor], [minTensor], [maxTensor], [], [], []⟩

/-- A session evaluating every tensor to 0 and every payload to no bytes. -/
def zeroSession : Session := ⟨fun _ => 0, fun _ => []⟩

/-- A session resolving `minTensor` to 0 and every other tensor to 9. -/
def session09 : Session :=
  ⟨fun t => if t.name = "mn:0" then 0 else 9, fun _ => []⟩

/-- An anchor tensor carrying the reserved global sentinel name. -/
def anchorGlobal : Tensor :=
  { name := "tft_schema_override_global_sentinel:0", dtype := DType.string,
    shape := some [] }

/-- An anchor tensor with an ordinary feature name. -/
def anchorFeature : Tensor :=
  { name := "feat:0", dtype := DType.int64, shape := some [none] }

end Fixtures

section OverrideRegistryTheorems

/-- An Except value that is no success is an error. -/
theorem error_of_no_ok {ε α : Type} (r : Except ε α)
    (h : ∀ a, r ≠ Except.ok a) : ∃ e, r = Except.error e := by
  cases r with
  | error e => exact ⟨e, rfl⟩
  | ok a => exact absurd rfl (h a)

/-- C6: registering an override appends exactly one entry to each of the
three override registries when the value tensor is a dense int64 tensor and
both bounds are tensors; when any of these preconditions fails, the call
returns a validation error (and, since in the source every raise precedes
every append, no registry is touched). -/
theorem set_override_registration (g : Graph)
    (tensor min_value max_value : PyValue) :
    (∀ t mn mx, tensor = PyValue.tensor t → t.dtype = DType.int64 →
       min_value = PyValue.tensor mn → max_value = PyValue.tensor mx →
       set_tensor_schema_override g tensor min_value max_value =
         Except.ok { g with overrideTensors := g.overrideTensors ++ [t]
                            overrideMins := g.overrideMins ++ [mn]
                            overrideMaxs := g.overrideMaxs ++ [mx] } ∧
       (g.overrideTensors ++ [t]).length = g.overrideTensors.length + 1 ∧
       (g.overrideMins ++ [mn]).length = g.overrideMins.length + 1 ∧
       (g.overrideMaxs ++ [mx]).length = g.overrideMaxs.length + 1) ∧
    ((¬ ∃ t mn mx, tensor = PyValue.tensor t ∧ t.dtype = DType.int64 ∧
        min_value = PyValue.tensor mn ∧ max_value = PyValue.tensor mx) →
       ∃ e, set_tensor_schema_override g tensor min_value max_value =
         Except.error e) := by
  constructor
  · rintro t mn mx rfl hd rfl rfl
    refine ⟨?_, by simp, by simp, by simp⟩
    simp [set_tensor_schema_override, hd]
  · intro hnv
    apply error_of_no_ok
    intro g' hok
    apply hnv
    cases tensor with
    | tensor t =>
        by_cases hd : t.dtype = DType.int64
        · cases min_value with
          | tensor mn =>
              cases max_value with
              | tensor mx => exact ⟨t, mn, mx, rfl, hd, rfl, rfl⟩
              | sparseTensor st => simp [set_tensor_schema_override, hd] at hok
              | literalInt n => simp [set_tensor_schema_override, hd] at hok
          | sparseTensor st => simp [set_tensor_schema_override, hd] at hok
          | literalInt n => simp [set_tensor_schema_override, hd] at hok
        · simp [set_tensor_schema_override, hd] at hok
    | sparseTensor st => simp [set_tensor_schema_override] at hok
    | literalInt n => simp [set_tensor_schema_override] at hok

/-- C6 witness: a valid registration on the empty graph appends one entry to
each registry, and registering a sparse tensor fails with an error. -/
theorem set_override_registration_witness :
    set_tensor_schema_override emptyGraph (PyValue.tensor ovTensor)
        (PyValue.tensor minTensor) (PyValue.tensor maxTensor) =
      Except.ok overrideGraph ∧
    ∃ e, set_tensor_schema_override emptyGraph
        (PyValue.sparseTensor { values := ovTensor, shape := some [none, none] })
        (PyValue.tensor minTensor) (PyValue.tensor maxTensor) =
      Except.error e := by
  constructor
  · exact ((set_override_registration emptyGraph (PyValue.tensor ovTensor)
      (PyValue.tensor minTensor) (PyValue.tensor maxTensor)).1
      ovTensor minTensor maxTensor rfl rfl rfl rfl).1
  · refine (set_override_registration emptyGraph
      (PyValue.sparseTensor { values := ovTensor, shape := some [none, none] })
      (PyValue.tensor minTensor) (PyValue.tensor maxTensor)).2 ?_
    rintro ⟨t, mn, mx, h, -⟩
    cases h

/-- Appending to the first list does not change a triple zip once the second
list is exhausted. -/
theorem zip3_drops_trailing {α β γ : Type} :
    ∀ (xs : List α) (ys : List β) (zs : List γ) (extra : List α),
      ys.length ≤ xs.length →
      zip3 (xs ++ extra) ys zs = zip3 xs ys zs := by
  intro xs
  induction xs with
  | nil =>
      intro ys zs extra hle
      have hy : ys = [] := List.length_eq_zero.mp (Nat.le_zero.mp hle)
      subst hy
      cases extra <;> cases zs <;> rfl
  | cons x xs ih =>
      intro ys zs extra hle
      cases ys with
      | nil => cases extra <;> cases zs <;> rfl
      | cons y ys =>
          cases zs with
          | nil => rfl
          | cons z zs =>
              simp only [List.cons_append, zip3, List.cons.injEq, true_and]
              exact ih ys zs extra (Nat.succ_le_succ_iff.mp hle)

/-- C7 counterexample: with unequal annotation registries (two anchors, one
type url, two payloads) annotation resolution does not raise; it silently
returns a result reflecting only the first triple. The claim states this
situation is fatal. -/
theorem unequal_annotation_registries_return :
    _get_schema_annotations
        ⟨[], [], [], [anchorGlobal, anchorGlobal], ["u"],
         [ProtoValue.literal [1], ProtoValue.literal [2]]⟩ zeroSession =
      ([], [{ type_url := "u", value := [1] }]) := rfl

/-- C7 amended: resolving the override registries with unequal lengths is
always fatal (the assertion error aborts and propagates through
`infer_feature_schema`), but resolving the annotation registries with
unequal lengths is not fatal: the zip silently truncates, so trailing
entries of a longer registry are ignored and a result is returned. -/
theorem registry_length_mismatch (g : Graph) (s : Session)
    (extra : List Tensor)
    (hmm : g.overrideTensors.length ≠ g.overrideMins.length ∨
           g.overrideTensors.length ≠ g.overrideMaxs.length)
    (hle : g.annotationTypeUrls.length ≤ g.annotationAnchors.length) :
    _get_tensor_schema_overrides g = Except.error TftError.assertionError ∧
    (∀ (features : List (String × TensorLike)) (session : Option Session),
       infer_feature_schema features g session =
         Except.error TftError.assertionError) ∧
    _get_schema_annotations
        { g with annotationAnchors := g.annotationAnchors ++ extra } s =
      _get_schema_annotations g s := by
  have hov : _get_tensor_schema_overrides g =
      Except.error TftError.assertionError := by
    unfold _get_tensor_schema_overrides
    rcases hmm with h | h
    · rw [if_pos h]
    · by_cases h2 : g.overrideTensors.length = g.overrideMins.length
      · rw [if_neg (by simpa using h2), if_pos h]
      · rw [if_pos h2]
  refine ⟨hov, fun features session => ?_, ?_⟩
  · unfold infer_feature_schema resolveTensorRanges
    rw [hov]
  · unfold _get_schema_annotations
    simp only
    rw [zip3_drops_trailing g.annotationAnchors g.annotationTypeUrls
      g.annotationProtos extra hle]

/-- C7 witness: a graph with one override tensor but empty min/max
registries fails override resolution and the whole inference call with the
assertion error, while appending an extra anchor beyond the (empty) type-url
registry leaves annotation resolution unchanged. -/
theorem registry_length_mismatch_witness :
    _get_tensor_schema_overrides ⟨[ovTensor], [], [], [], [], []⟩ =
      Except.error TftError.assertionError ∧
    infer_feature_schema [] ⟨[ovTensor], [], [], [], [], []⟩ none =
      Except.error TftError.assertionError ∧
    _get_schema_annotations
        ⟨[ovTensor], [], [], [anchorGlobal], [], []⟩ zeroSession =
      _get_schema_annotations ⟨[ovTensor], [], [], [], [], []⟩ zeroSession := by
  obtain ⟨h1, h2, h3⟩ :=
    registry_length_mismatch ⟨[ovTensor], [], [], [], [], []⟩ zeroSession
      [anchorGlobal] (Or.inl (by decide)) (by decide)
  exact ⟨h1, h2 [] none, h3⟩

end OverrideRegistryTheorems

section AnnotationTheorems

/-- Triple zip of three lists of equal length each extended by one
element. -/
theorem zip3_snoc {α β γ : Type} :
    ∀ (xs : List α) (ys : List β) (zs : List γ) (a : α) (b : β) (c : γ),
      xs.length = ys.length → xs.length = zs.length →
      zip3 (xs ++ [a]) (ys ++ [b]) (zs ++ [c]) =
        zip3 xs ys zs ++ [(a, b, c)] := by
  intro xs
  induction xs with
  | nil =>
      intro ys zs a b c h1 h2
      have hy : ys = [] := List.length_eq_zero.mp h1.symm
      have hz : zs = [] := List.length_eq_zero.mp h2.symm
      subst hy; subst hz; rfl
  | cons x xs ih =>
      intro ys zs a b c h1 h2
      cases ys with
      | nil => simp at h1
      | cons y ys =>
          cases zs with
          | nil => simp at h2
          | cons z zs =>
              have h1' : xs.length = ys.length := by simpa using h1
              have h2' : xs.length = zs.length := by simpa using h2
              simp only [List.cons_append, zip3, List.cons.injEq, true_and]
              exact ih ys zs a b c h1' h2'

/-- Registering one more annotation with an explicit anchor and then
resolving is the same as resolving first and running one more step of the
loop body on the new triple, provided the three registries have equal
lengths. -/
theorem getSchemaAnns_snoc (g : Graph) (s : Session) (t : Tensor)
    (url : String) (pv : ProtoValue) (scopePath nameSuffix : String)
    (h1 : g.annotationAnchors.length = g.annotationTypeUrls.length)
    (h2 : g.annotationAnchors.length = g.annotationProtos.length) :
    _get_schema_annotations (annotate g url pv (some t) scopePath nameSuffix) s =
      annotationStep s (_get_schema_annotations g s) (t, url, pv) := by
  have hg : annotate g url pv (some t) scopePath nameSuffix =
      { g with annotationAnchors := g.annotationAnchors ++ [t]
               annotationTypeUrls := g.annotationTypeUrls ++ [url]
               annotationProtos := g.annotationProtos ++ [pv] } := rfl
  rw [hg]
  unfold _get_schema_annotations
  dsimp only
  rw [zip3_snoc g.annotationAnchors g.annotationTypeUrls g.annotationProtos
    t url pv h1 h2, List.foldl_append]
  rfl

/-- Looking up the key just extended in the annotation multidict yields its
previous list with the new record appended at the end. -/
theorem mdictLookup_multidictAppend (m : List (Tensor × List AnyProto))
    (key : Tensor) (a : AnyProto) :
    mdictLookup (multidictAppend m key a) key =
      some ((mdictLookup m key).getD [] ++ [a]) := by
  induction m with
  | nil => simp [multidictAppend, mdictLookup]
  | cons p rest ih =>
      obtain ⟨k, vs⟩ := p
      by_cases hk : k = key
      · simp [multidictAppend, mdictLookup, hk]
      · simp [multidictAppend, mdictLookup, hk, ih]

/-- A payload list that is not nil is not empty in the Bool sense. -/
theorem isEmpty_false_of_ne_nil {l : List Nat} (h : l ≠ []) :
    l.isEmpty = false := by
  cases l with
  | nil => exact absurd rfl h
  | cons a as => rfl

/-- C8: during annotation resolution with a session, a registered annotation
with an empty resolved payload is dropped without error (the result is
unchanged); a non-empty resolved payload contributes exactly one record
carrying the registered type url and the resolved bytes, appended to the
global list for a sentinel-named anchor and to the list of the anchor
tensor otherwise, so that repeated annotations on one anchor accumulate in
registration order. -/
theorem annotation_payload_resolution (g : Graph) (s : Session) (t : Tensor)
    (url : String) (pv : ProtoValue) (scopePath nameSuffix : String)
    (h1 : g.annotationAnchors.length = g.annotationTypeUrls.length)
    (h2 : g.annotationAnchors.length = g.annotationProtos.length) :
    (resolveProtoValue s pv = [] →
       _get_schema_annotations
           (annotate g url pv (some t) scopePath nameSuffix) s =
         _get_schema_annotations g s) ∧
    (resolveProtoValue s pv ≠ [] →
       strStartsWith (lastPathComponent t.name)
           _TF_METADATA_EXTRA_ANNOTATION_GLOBAL = true →
       _get_schema_annotations
           (annotate g url pv (some t) scopePath nameSuffix) s =
         ((_get_schema_annotations g s).1,
          (_get_schema_annotations g s).2 ++
            [{ type_url := url, value := resolveProtoValue s pv }])) ∧
    (resolveProtoValue s pv ≠ [] →
       strStartsWith (lastPathComponent t.name)
           _TF_METADATA_EXTRA_ANNOTATION_GLOBAL = false →
       _get_schema_annotations
           (annotate g url pv (some t) scopePath nameSuffix) s =
         (multidictAppend (_get_schema_annotations g s).1 t
            { type_url := url, value := resolveProtoValue s pv },
          (_get_schema_annotations g s).2) ∧
       mdictLookup
           (_get_schema_annotations
             (annotate g url pv (some t) scopePath nameSuffix) s).1 t =
         some ((mdictLookup (_get_schema_annotations g s).1 t).getD [] ++
           [{ type_url := url, value := resolveProtoValue s pv }])) := by
  have hstep := getSchemaAnns_snoc g s t url pv scopePath nameSuffix h1 h2
  refine ⟨?_, ?_, ?_⟩
  · intro hempty
    rw [hstep]
    simp [annotationStep, hempty]
  · intro hne hcl
    rw [hstep]
    simp [annotationStep, isEmpty_false_of_ne_nil hne, hcl]
  · intro hne hcl
    rw [hstep]
    constructor
    · simp [annotationStep, isEmpty_false_of_ne_nil hne, hcl]
    · simp [annotationStep, isEmpty_false_of_ne_nil hne, hcl,
        mdictLookup_multidictAppend]

/-- C8 witness: on the empty graph, registering an empty literal payload on
a feature anchor leaves resolution unchanged, while a non-empty payload
appends one record to the list kept for that anchor. -/
theorem annotation_payload_resolution_witness :
    _get_schema_annotations
        (annotate emptyGraph "u" (ProtoValue.literal [])
          (some anchorFeature) "" "") zeroSession =
      _get_schema_annotations emptyGraph zeroSession ∧
    _get_schema_annotations
        (annotate emptyGraph "u" (ProtoValue.literal [7])
          (some anchorFeature) "" "") zeroSession =
      (multidictAppend (_get_schema_annotations emptyGraph zeroSession).1
         anchorFeature { type_url := "u", value := [7] },
       (_get_schema_annotations emptyGraph zeroSession).2) := by
  constructor
  · exact (annotation_payload_resolution emptyGraph zeroSession anchorFeature
      "u" (ProtoValue.literal []) "" "" rfl rfl).1 rfl
  · exact ((annotation_payload_resolution emptyGraph zeroSession anchorFeature
      "u" (ProtoValue.literal [7]) "" "" rfl rfl).2.2 (by decide)
      (by decide)).1

/-- Processing a concatenation threads the accumulator of the last-component
scan through the left part. -/
theorem lastComponentAux_append :
    ∀ (xs ys acc : List Char),
      lastComponentAux (xs ++ ys) acc =
        lastComponentAux ys (lastComponentAux xs acc) := by
  intro xs
  induction xs with
  | nil => intro ys acc; rfl
  | cons c cs ih =>
      intro ys acc
      by_cases h : c = '/'
      · simp only [List.cons_append, lastComponentAux, if_pos h]
        exact ih ys []
      · simp only [List.cons_append, lastComponentAux, if_neg h]
        exact ih ys (acc ++ [c])

/-- On slash-free text the last-component scan appends the text to the
accumulator. -/
theorem lastComponentAux_no_slash :
    ∀ (cs acc : List Char), '/' ∉ cs → lastComponentAux cs acc = acc ++ cs := by
  intro cs
  induction cs with
  | nil => intro acc h; simp [lastComponentAux]
  | cons c cs ih =>
      intro acc h
      rw [List.mem_cons, not_or] at h
      have hc : ¬ (c = '/') := fun hq => h.1 hq.symm
      simp only [lastComponentAux, if_neg hc]
      rw [ih (acc ++ [c]) h.2]
      simp

/-- A slash resets the last-component scan. -/
theorem lastComponentAux_slash (cs acc : List Char) :
    lastComponentAux ('/' :: cs) acc = lastComponentAux cs [] := by
  simp [lastComponentAux]

/-- The reserved sentinel op name contains no slash. -/
theorem sentinel_no_slash : '/' ∉ _TF_METADATA_EXTRA_ANNOTATION_GLOBAL.data := by
  decide

/-- The name TensorFlow gives the sentinel constant created by `annotate`
with no anchor (scope path, then the sentinel, then a slash-free
uniquifying suffix) is classified as global by the final-path-component
test, for every scope path. -/
theorem isGlobal_scoped_sentinel (scopePath nameSuffix : String)
    (hscope : scopePath.data = [] ∨ ∃ q, scopePath.data = q ++ ['/'])
    (hsfx : '/' ∉ nameSuffix.data) :
    strStartsWith
      (lastPathComponent
        (scopePath ++ _TF_METADATA_EXTRA_ANNOTATION_GLOBAL ++ nameSuffix))
      _TF_METADATA_EXTRA_ANNOTATION_GLOBAL = true := by
  have hdata :
      (scopePath ++ _TF_METADATA_EXTRA_ANNOTATION_GLOBAL ++ nameSuffix).data =
        scopePath.data ++ (_TF_METADATA_EXTRA_ANNOTATION_GLOBAL.data ++
          nameSuffix.data) := by
    rw [String.data_append, String.data_append, List.append_assoc]
  have hrest : '/' ∉ _TF_METADATA_EXTRA_ANNOTATION_GLOBAL.data ++
      nameSuffix.data := by
    intro hm
    rcases List.mem_append.mp hm with hm | hm
    · exact sentinel_no_slash hm
    · exact hsfx hm
  have hlast : lastComponentAux
      ((scopePath ++ _TF_METADATA_EXTRA_ANNOTATION_GLOBAL ++ nameSuffix).data)
      [] = _TF_METADATA_EXTRA_ANNOTATION_GLOBAL.data ++ nameSuffix.data := by
    rw [hdata]
    rcases hscope with h | ⟨q, h⟩
    · rw [h, List.nil_append]
      exact lastComponentAux_no_slash _ [] hrest
    · rw [h, List.append_assoc, lastComponentAux_append]
      rw [show (['/'] ++ (_TF_METADATA_EXTRA_ANNOTATION_GLOBAL.data ++
        nameSuffix.data)) = '/' :: (_TF_METADATA_EXTRA_ANNOTATION_GLOBAL.data ++
        nameSuffix.data) from rfl]
      rw [lastComponentAux_slash]
      exact lastComponentAux_no_slash _ [] hrest
  unfold strStartsWith lastPathComponent
  rw [hlast]
  rw [List.isPrefixOf_iff_prefix]
  exact List.prefix_append _ _

/-- C9: an annotation with a non-empty payload lands in the global list
exactly when the final path component of its anchor name starts with the
reserved sentinel; a non-sentinel anchor receives the record in its own
per-tensor list; and an annotation registered with no explicit anchor is
global for every graph-construction scope path. -/
theorem global_annotation_classification (g : Graph) (s : Session)
    (t : Tensor) (url : String) (pv : ProtoValue)
    (scopePath nameSuffix : String)
    (h1 : g.annotationAnchors.length = g.annotationTypeUrls.length)
    (h2 : g.annotationAnchors.length = g.annotationProtos.length)
    (hne : resolveProtoValue s pv ≠ [])
    (hscope : scopePath.data = [] ∨ ∃ q, scopePath.data = q ++ ['/'])
    (hsfx : '/' ∉ nameSuffix.data) :
    ((_get_schema_annotations
         (annotate g url pv (some t) scopePath nameSuffix) s).2 ≠
       (_get_schema_annotations g s).2 ↔
       strStartsWith (lastPathComponent t.name)
         _TF_METADATA_EXTRA_ANNOTATION_GLOBAL = true) ∧
    (strStartsWith (lastPathComponent t.name)
         _TF_METADATA_EXTRA_ANNOTATION_GLOBAL = false →
       mdictLookup
           (_get_schema_annotations
             (annotate g url pv (some t) scopePath nameSuffix) s).1 t ≠
         none) ∧
    ((_get_schema_annotations
         (annotate g url pv none scopePath nameSuffix) s).2 =
       (_get_schema_annotations g s).2 ++
         [{ type_url := url, value := resolveProtoValue s pv }]) := by
  have hstep := getSchemaAnns_snoc g s t url pv scopePath nameSuffix h1 h2
  have hie := isEmpty_false_of_ne_nil hne
  refine ⟨⟨?_, ?_⟩, ?_, ?_⟩
  · intro hneq
    cases hcl : strStartsWith (lastPathComponent t.name)
        _TF_METADATA_EXTRA_ANNOTATION_GLOBAL with
    | true => rfl
    | false =>
        exfalso
        apply hneq
        rw [hstep]
        simp [annotationStep, hie, hcl]
  · intro hcl
    rw [hstep]
    simp only [annotationStep, hie, hcl]
    intro hcontra
    have := congrArg List.length hcontra
    simp at this
  · intro hcl
    rw [hstep]
    simp [annotationStep, hie, hcl, mdictLookup_multidictAppend]
  · have hnone : annotate g url pv none scopePath nameSuffix =
        annotate g url pv
          (some { name := scopePath ++ _TF_METADATA_EXTRA_ANNOTATION_GLOBAL ++
                    nameSuffix,
                  dtype := DType.string, shape := some [] })
          scopePath nameSuffix := rfl
    rw [hnone, getSchemaAnns_snoc g s _ url pv scopePath nameSuffix h1 h2]
    simp [annotationStep, hie,
      isGlobal_scoped_sentinel scopePath nameSuffix hscope hsfx]

/-- C9 witness: an annotation registered with no explicit anchor inside the
scope path transform/ and uniquified as sentinel_1:0 resolves into the
global annotation list of the empty graph. -/
theorem global_annotation_classification_witness :
    (_get_schema_annotations
        (annotate emptyGraph "u" (ProtoValue.literal [3]) none
          "transform/" "_1:0") zeroSession).2 =
      (_get_schema_annotations emptyGraph zeroSession).2 ++
        [{ type_url := "u", value := [3] }] :=
  (global_annotation_classification emptyGraph zeroSession anchorFeature "u"
    (ProtoValue.literal [3]) "transform/" "_1:0" rfl rfl (by decide)
    (Or.inr ⟨"transform".data, by decide⟩) (by decide)).2.2

end AnnotationTheorems

section InferSchemaTheorems

/-- With no session, override resolution maps every registered tensor to the
pair (none, none), provided the registries are well-formed. -/
theorem resolve_ok_none (g : Graph) (hwf : g.overridesWF) :
    resolveTensorRanges g none =
      Except.ok
        ((g.overrideTensors.zip (g.overrideMins.zip g.overrideMaxs)).map
          (fun p => (p.1, (none, none)))) := by
  unfold resolveTensorRanges _get_tensor_schema_overrides
  rw [if_neg (not_not_intro hwf.1), if_neg (not_not_intro hwf.2.1)]

/-- With a session, override resolution evaluates every min and max tensor
through the session, provided the registries are well-formed. -/
theorem resolve_ok_some (g : Graph) (s : Session) (hwf : g.overridesWF) :
    resolveTensorRanges g (some s) =
      Except.ok
        ((g.overrideTensors.zip (g.overrideMins.zip g.overrideMaxs)).map
          (fun p =>
            (p.1, (some (s.evalInt p.2.1), some (s.evalInt p.2.2))))) := by
  unfold resolveTensorRanges _get_tensor_schema_overrides
  rw [if_neg (not_not_intro hwf.1), if_neg (not_not_intro hwf.2.1)]

/-- A successful later-wins lookup comes from an entry of the list. -/
theorem dictLookup_mem {α : Type} :
    ∀ (l : List (Tensor × α)) (key : Tensor) (v : α),
      dictLookup l key = some v → (key, v) ∈ l := by
  intro l
  induction l with
  | nil => intro key v h; cases h
  | cons p rest ih =>
      intro key v h
      obtain ⟨k, w⟩ := p
      unfold dictLookup at h
      cases hrest : dictLookup rest key with
      | some u =>
          rw [hrest] at h
          cases h
          exact List.mem_cons_of_mem _ (ih key v hrest)
      | none =>
          rw [hrest] at h
          by_cases hk : k = key
          · rw [if_pos hk] at h
            cases h
            subst hk
            exact List.mem_cons_self _ _
          · rw [if_neg hk] at h
            cases h

/-- Later-wins lookup commutes with mapping a function over the values. -/
theorem dictLookup_map {α β : Type} (F : α → β) :
    ∀ (l : List (Tensor × α)) (key : Tensor),
      dictLookup (l.map (fun p => (p.1, F p.2))) key =
        (dictLookup l key).map F := by
  intro l
  induction l with
  | nil => intro key; rfl
  | cons p rest ih =>
      intro key
      obtain ⟨k, w⟩ := p
      simp only [List.map_cons]
      unfold dictLookup
      rw [ih key]
      cases dictLookup rest key with
      | some u => rfl
      | none => by_cases hk : k = key <;> simp [hk]

/-- One step of the per-feature loop on top of a successful tail: a feature
without a resolved range adds no domain, one with a resolved range adds the
categorical domain for its bounds at the front, provided every range key has
int64 dtype. -/
theorem build_cons_ok (tr : List (Tensor × Option Int × Option Int))
    (ta : List (Tensor × List AnyProto))
    (hall : ∀ p ∈ tr, p.1.dtype = DType.int64)
    (name : String) (tl : TensorLike) (rest : List (String × TensorLike))
    (pair : List (String × IntDomain) × List (String × List AnyProto))
    (hpair : buildDomainsAndAnns tr ta rest = Except.ok pair) :
    (dictLookup tr tl.valuesTensor = none →
       ∃ ha, buildDomainsAndAnns tr ta ((name, tl) :: rest) =
           Except.ok (pair.1, ha ++ pair.2) ∧ (ta = [] → ha = [])) ∧
    (∀ mn mx, dictLookup tr tl.valuesTensor = some (mn, mx) →
       ∃ ha, buildDomainsAndAnns tr ta ((name, tl) :: rest) =
           Except.ok
             ((name, { min := mn, max := mx, is_categorical := true }) ::
               pair.1, ha ++ pair.2) ∧ (ta = [] → ha = [])) := by
  constructor
  · intro hl
    cases hm : mdictLookup ta tl.valuesTensor with
    | none =>
        refine ⟨[], ?_, fun _ => rfl⟩
        simp only [buildDomainsAndAnns, hl, hm, hpair]
        simp
    | some anns =>
        refine ⟨[(name, anns)], ?_, fun hta => ?_⟩
        · simp only [buildDomainsAndAnns, hl, hm, hpair]
          simp
        · subst hta; cases hm
  · intro mn mx hl
    have hdt : tl.valuesTensor.dtype = DType.int64 :=
      hall _ (dictLookup_mem tr tl.valuesTensor (mn, mx) hl)
    cases hm : mdictLookup ta tl.valuesTensor with
    | none =>
        refine ⟨[], ?_, fun _ => rfl⟩
        simp only [buildDomainsAndAnns, hl, hm, hpair, hdt]
        simp
    | some anns =>
        refine ⟨[(name, anns)], ?_, fun hta => ?_⟩
        · simp only [buildDomainsAndAnns, hl, hm, hpair, hdt]
          simp
        · subst hta; cases hm

/-- Under well-formed ranges the per-feature loop always succeeds; every
produced domain is the categorical domain of some resolved range, and with
no per-tensor annotations the produced annotation list is empty. -/
theorem build_ok (tr : List (Tensor × Option Int × Option Int))
    (ta : List (Tensor × List AnyProto))
    (hall : ∀ p ∈ tr, p.1.dtype = DType.int64) :
    ∀ features : List (String × TensorLike),
      ∃ pair, buildDomainsAndAnns tr ta features = Except.ok pair ∧
        (∀ q ∈ pair.1, ∃ t mn mx, dictLookup tr t = some (mn, mx) ∧
          q.2 = { min := mn, max := mx, is_categorical := true }) ∧
        (ta = [] → pair.2 = []) := by
  intro features
  induction features with
  | nil => exact ⟨([], []), rfl, by simp, fun _ => rfl⟩
  | cons p rest ih =>
      obtain ⟨name, tl⟩ := p
      obtain ⟨pair, hpair, hdom, hann⟩ := ih
      cases hl : dictLookup tr tl.valuesTensor with
      | none =>
          obtain ⟨ha, heq, hha⟩ :=
            (build_cons_ok tr ta hall name tl rest pair hpair).1 hl
          refine ⟨(pair.1, ha ++ pair.2), heq, hdom, fun hta => ?_⟩
          rw [hha hta, hann hta]
          rfl
      | some v =>
          obtain ⟨mn, mx⟩ := v
          obtain ⟨ha, heq, hha⟩ :=
            (build_cons_ok tr ta hall name tl rest pair hpair).2 mn mx hl
          refine ⟨_, heq, ?_, fun hta => ?_⟩
          · intro q hq
            rcases List.mem_cons.mp hq with rfl | hq'
            · exact ⟨tl.valuesTensor, mn, mx, hl, rfl⟩
            · exact hdom q hq'
          · rw [hha hta, hann hta]
            rfl

/-- A feature whose value tensor has a resolved range contributes its
categorical domain to the loop output. -/
theorem build_mem (tr : List (Tensor × Option Int × Option Int))
    (ta : List (Tensor × List AnyProto))
    (hall : ∀ p ∈ tr, p.1.dtype = DType.int64) :
    ∀ (features : List (String × TensorLike)) (name : String)
      (tl : TensorLike) (mn mx : Option Int),
      (name, tl) ∈ features →
      dictLookup tr tl.valuesTensor = some (mn, mx) →
      ∃ pair, buildDomainsAndAnns tr ta features = Except.ok pair ∧
        (name, { min := mn, max := mx, is_categorical := true }) ∈
          pair.1 := by
  intro features
  induction features with
  | nil => intro name tl mn mx hmem; cases hmem
  | cons p rest ih =>
      intro name tl mn mx hmem hlk
      obtain ⟨pname, ptl⟩ := p
      rcases List.mem_cons.mp hmem with heq | hmem'
      · injection heq with h1 h2
        subst h1
        subst h2
        obtain ⟨pair, hpair, -, -⟩ := build_ok tr ta hall rest
        obtain ⟨ha, hbuild, -⟩ :=
          (build_cons_ok tr ta hall name tl rest pair hpair).2 mn mx hlk
        exact ⟨_, hbuild, List.mem_cons_self _ _⟩
      · obtain ⟨pair, hpair, hmem2⟩ := ih name tl mn mx hmem' hlk
        cases hl0 : dictLookup tr ptl.valuesTensor with
        | none =>
            obtain ⟨ha, hbuild, -⟩ :=
              (build_cons_ok tr ta hall pname ptl rest pair hpair).1 hl0
            exact ⟨_, hbuild, hmem2⟩
        | some v =>
            obtain ⟨mn0, mx0⟩ := v
            obtain ⟨ha, hbuild, -⟩ :=
              (build_cons_ok tr ta hall pname ptl rest pair hpair).2 mn0
                mx0 hl0
            exact ⟨_, hbuild, List.mem_cons_of_mem _ hmem2⟩

/-- C1 counterexample: with a registered override on the feature tensor and
no session, the assembled schema DOES carry a domain entry for that feature
(with unset bounds and is_categorical true): the domains handed to the
schema-construction collaborator are not empty, contrary to the claim. -/
theorem override_without_session_sets_domain :
    infer_feature_schema [("f1", TensorLike.dense ovTensor)] overrideGraph
        none =
      Except.ok
        { featureSpec := [("f1", FeatureSpecEntry.fixedLen [some 1]
            DType.int64)],
          domains := [("f1", { min := none, max := none,
                               is_categorical := true })],
          featureAnns := [], globalAnns := [] } := rfl

/-- C1 amended: with no session and well-formed override registries,
inference never raises (for features whose feature spec is inferable):
every registered tensor resolves to the pair (none, none), both annotation
sets are empty, and every domain entry handed to the schema-construction
collaborator has unset min and max with only the categorical flag set (the
domains mapping itself need not be empty). -/
theorem infer_schema_no_session (features : List (String × TensorLike))
    (g : Graph) (hwf : g.overridesWF)
    (fs : List (String × FeatureSpecEntry))
    (hfs : _feature_spec_from_batched_tensors features = Except.ok fs) :
    resolveTensorRanges g none =
      Except.ok
        ((g.overrideTensors.zip (g.overrideMins.zip g.overrideMaxs)).map
          (fun p => (p.1, (none, none)))) ∧
    ∃ out, infer_feature_schema features g none = Except.ok out ∧
      out.featureSpec = fs ∧
      (∀ q ∈ out.domains,
        q.2 = { min := none, max := none, is_categorical := true }) ∧
      out.featureAnns = [] ∧ out.globalAnns = [] := by
  have hres := resolve_ok_none g hwf
  refine ⟨hres, ?_⟩
  have hall : ∀ p ∈
      (g.overrideTensors.zip (g.overrideMins.zip g.overrideMaxs)).map
        (fun p => (p.1, ((none : Option Int), (none : Option Int)))),
      p.1.dtype = DType.int64 := by
    intro p hp
    rcases List.mem_map.mp hp with ⟨q, hq, rfl⟩
    obtain ⟨q1, q2⟩ := q
    exact hwf.2.2 q1 (List.of_mem_zip hq).1
  obtain ⟨⟨doms, fanns⟩, hpair, hdom, hann⟩ :=
    build_ok
      ((g.overrideTensors.zip (g.overrideMins.zip g.overrideMaxs)).map
        (fun p => (p.1, (none, none)))) [] hall features
  refine ⟨⟨fs, doms, fanns, []⟩, ?_, rfl, ?_, hann rfl, rfl⟩
  · simp only [infer_feature_schema, hres, hpair, hfs]
  · intro q hq
    obtain ⟨t, mn, mx, hlk, hq2⟩ := hdom q hq
    have hmap := dictLookup_map
      (fun _ : Tensor × Tensor => ((none : Option Int), (none : Option Int)))
      (g.overrideTensors.zip (g.overrideMins.zip g.overrideMaxs)) t
    rw [hmap] at hlk
    cases hb : dictLookup
        (g.overrideTensors.zip (g.overrideMins.zip g.overrideMaxs)) t with
    | none => rw [hb] at hlk; cases hlk
    | some w =>
        rw [hb] at hlk
        simp only [Option.map_some'] at hlk
        injection hlk with hlk2
        injection hlk2 with ha hb2
        rw [hq2, ← ha, ← hb2]

/-- C1 witness: on a graph with one registered override and no session, the
single registered tensor resolves to the pair (none, none). -/
theorem infer_schema_no_session_witness :
    resolveTensorRanges overrideGraph none =
      Except.ok [(ovTensor, (none, none))] :=
  (infer_schema_no_session [("f1", TensorLike.dense ovTensor)] overrideGraph
    (by refine ⟨rfl, rfl, ?_⟩; intro t ht;
        rcases List.mem_singleton.mp ht with rfl; rfl)
    [("f1", FeatureSpecEntry.fixedLen [some 1] DType.int64)]
    rfl).1

/-- C10: with a session, a feature whose value tensor was registered with
min and max tensors receives in the assembled schema the inclusive integer
domain given by the session-evaluated bounds, marked categorical. -/
theorem override_domain_with_session (features : List (String × TensorLike))
    (g : Graph) (s : Session) (name : String) (tl : TensorLike)
    (mnT mxT : Tensor) (hwf : g.overridesWF)
    (fs : List (String × FeatureSpecEntry))
    (hfs : _feature_spec_from_batched_tensors features = Except.ok fs)
    (hmem : (name, tl) ∈ features)
    (hov : dictLookup
        (g.overrideTensors.zip (g.overrideMins.zip g.overrideMaxs))
        tl.valuesTensor = some (mnT, mxT)) :
    ∃ out, infer_feature_schema features g (some s) = Except.ok out ∧
      (name, { min := some (s.evalInt mnT), max := some (s.evalInt mxT),
               is_categorical := true }) ∈ out.domains := by
  have hres := resolve_ok_some g s hwf
  have hall : ∀ p ∈
      (g.overrideTensors.zip (g.overrideMins.zip g.overrideMaxs)).map
        (fun p => (p.1, (some (s.evalInt p.2.1), some (s.evalInt p.2.2)))),
      p.1.dtype = DType.int64 := by
    intro p hp
    rcases List.mem_map.mp hp with ⟨q, hq, rfl⟩
    obtain ⟨q1, q2⟩ := q
    exact hwf.2.2 q1 (List.of_mem_zip hq).1
  have hlk : dictLookup
      ((g.overrideTensors.zip (g.overrideMins.zip g.overrideMaxs)).map
        (fun p => (p.1, (some (s.evalInt p.2.1), some (s.evalInt p.2.2)))))
      tl.valuesTensor =
      some (some (s.evalInt mnT), some (s.evalInt mxT)) := by
    have hmap := dictLookup_map
      (fun q : Tensor × Tensor =>
        ((some (s.evalInt q.1) : Option Int),
         (some (s.evalInt q.2) : Option Int)))
      (g.overrideTensors.zip (g.overrideMins.zip g.overrideMaxs))
      tl.valuesTensor
    rw [hmap, hov]
    rfl
  obtain ⟨⟨doms, fanns⟩, hpair, hmem2⟩ :=
    build_mem
      ((g.overrideTensors.zip (g.overrideMins.zip g.overrideMaxs)).map
        (fun p => (p.1, (some (s.evalInt p.2.1), some (s.evalInt p.2.2)))))
      (_get_schema_annotations g s).1 hall features name tl _ _ hmem hlk
  refine ⟨⟨fs, doms, fanns, (_get_schema_annotations g s).2⟩, ?_, hmem2⟩
  simp only [infer_feature_schema, hres, hpair, hfs]

/-- C10 witness: with the override registered on the feature tensor and a
session resolving the min tensor to 0 and the max tensor to 9, the feature
receives the integer domain from 0 to 9 marked categorical. -/
theorem override_domain_with_session_witness :
    ∃ out, infer_feature_schema [("f1", TensorLike.dense ovTensor)]
        overrideGraph (some session09) = Except.ok out ∧
      ("f1", { min := some 0, max := some 9, is_categorical := true }) ∈
        out.domains :=
  override_domain_with_session [("f1", TensorLike.dense ovTensor)]
    overrideGraph session09 "f1" (TensorLike.dense ovTensor) minTensor
    maxTensor
    (by refine ⟨rfl, rfl, ?_⟩; intro t ht;
        rcases List.mem_singleton.mp ht with rfl; rfl)
    [("f1", FeatureSpecEntry.fixedLen [some 1] DType.int64)] rfl
    (List.mem_singleton.mpr rfl) rfl

end InferSchemaTheorems

end SchemaInference
